import Mathlib

/-!
Verification of the WPExtension forecasting service core against its
natural-language specification.

The Python source is shallowly embedded: pure computations become Lean
functions, the stateful strategy lifecycle becomes explicit state passing,
pandas/numpy numerics are modelled over `ℚ`/`ℝ`, and raised exceptions
become `Except`/`Option` error values.
-/

namespace WPE

/- ------------------------------------------------------------------ -/
/- Strategy registry (src/api/core/registry.py)                        -/
/- ------------------------------------------------------------------ -/

/-- A strategy as the registry sees it: an identity plus the mutable
`_loaded` flag from `BaseStrategy`. -/
structure Strat where
  sname : String
  loaded : Bool
deriving DecidableEq, Repr

/-- Errors raised by `StrategyRegistry` (`ValueError` in the source,
split by the two distinct messages). -/
inductive RegError
  /-- "No default strategy set and no strategy name provided" -/
  | notConfigured
  /-- "Strategy '...' not found. Available: [...]" — carries `list_all()` -/
  | notFound (available : List String)
deriving DecidableEq, Repr

/-- `StrategyRegistry.__init__`: `_strategies` is a Python dict, embedded as
an insertion-ordered association list with unique keys; `_default_name` is
an `Option`. -/
structure Registry (α : Type) where
  strategies : List (String × α)
  defaultName : Option String
deriving Repr

namespace Registry

variable {α : Type}

/-- Fresh registry: empty mapping, no default. -/
def empty : Registry α := ⟨[], none⟩

/-- The dict's keys, in insertion order (`list_all`). -/
def listAll (r : Registry α) : List String := r.strategies.map Prod.fst

/-- Dict membership / item lookup: `self._strategies[name]`. -/
def lookup (r : Registry α) (name : String) : Option α :=
  (r.strategies.find? (fun p => p.1 = name)).map Prod.snd

/-- `register`: `self._strategies[name] = strategy`. A Python dict keeps the
original position on overwrite and appends a genuinely new key. -/
def register (r : Registry α) (name : String) (s : α) : Registry α :=
  if (r.strategies.find? (fun p => p.1 = name)).isSome then
    { r with strategies := r.strategies.map (fun p => if p.1 = name then (name, s) else p) }
  else
    { r with strategies := r.strategies ++ [(name, s)] }

/-- `get`: resolve `None` to the default, raise `notConfigured` when there
is no default, raise `notFound` (listing `list_all()`) when the resolved
name is absent, else return the stored strategy. Pure: the source method
only reads `self`. -/
def get (r : Registry α) (name? : Option String) : Except RegError α :=
  match (match name? with | none => r.defaultName | some n => some n) with
  | none => .error .notConfigured
  | some n =>
    match r.lookup n with
    | none => .error (.notFound r.listAll)
    | some s => .ok s

/-- `set_default`: raise `notFound` when the name is unregistered, else set
`_default_name`. -/
def setDefault (r : Registry α) (name : String) : Except RegError (Registry α) :=
  if (r.lookup name).isSome then
    .ok { r with defaultName := some name }
  else
    .error (.notFound r.listAll)

/-- Documented registry invariant: a set default names a registered key. -/
def Inv (r : Registry α) : Prop :=
  ∀ d, r.defaultName = some d → d ∈ r.listAll

end Registry

/-- A small concrete registry for witnesses: one registered strategy `"lgb"`
(unloaded), default set to `"lgb"`. -/
def regEx : Registry Strat :=
  ⟨[("lgb", ⟨"lightgbm", false⟩)], some "lgb"⟩

/- ------------------------------------------------------------------ -/
/- Strategy lifecycle (src/api/core/base.py,                           -/
/- src/api/strategies/demand/lightgbm_strategy.py,                     -/
/- src/api/strategies/price/dnn_strategy.py)                           -/
/- ------------------------------------------------------------------ -/

/-- Mutable state of `LightGBMStrategy`: the `_loaded` flag from
`BaseStrategy` and the `self.models` list (each loaded booster identified by
its fold index). -/
structure LgbmState where
  loaded : Bool
  models : List Nat
deriving DecidableEq, Repr

/-- `LightGBMStrategy.__init__`: unloaded, empty model list. -/
def lgbmInit : LgbmState := ⟨false, []⟩

/-- `LightGBMStrategy.load`, against an environment `env`: the fold indices
whose `model_fold_i.txt` file exists on disk at this call. Returns the
post-call state and the raised error, if any: early-return when already
loaded; otherwise append a booster per existing fold file and raise
`ValueError` ("No models loaded") when the model list stays empty, else set
`_loaded`. -/
def lgbmLoad (env : List Nat) (s : LgbmState) : LgbmState × Option String :=
  if s.loaded then (s, none)
  else
    let models := s.models ++ env
    if models.isEmpty then ({ s with models := models }, some "No models loaded")
    else ({ loaded := true, models := models }, none)

/-- `BaseStrategy.ensure_loaded` as executed at the top of
`LightGBMStrategy.predict`: run `load` unless `_loaded` is set. Returns the
post-call state and the error propagated out of `predict`, if any. -/
def lgbmPredictCall (env : List Nat) (s : LgbmState) : LgbmState × Option String :=
  if s.loaded then (s, none) else lgbmLoad env s

/-- Mutable state of `DNNStrategy` relevant to `_ensure_keras_available`:
whether `self._model_from_json` has been resolved and whether
`self._keras_import_error` has been recorded. -/
structure DnnState where
  modelFromJson : Bool
  kerasImportError : Bool
deriving DecidableEq, Repr

/-- `DNNStrategy._ensure_keras_available`, against an environment flag
`kerasAvailable` (whether any keras module candidate imports). Early-return
when already resolved; re-raise a recorded import error without retrying the
import; otherwise try the import, memoising either the resolved module or
the failure. -/
def dnnEnsureKeras (kerasAvailable : Bool) (s : DnnState) : DnnState × Option String :=
  if s.modelFromJson then (s, none)
  else if s.kerasImportError then
    (s, some "TensorFlow keras previously failed to import")
  else if kerasAvailable then
    ({ s with modelFromJson := true }, none)
  else
    ({ s with kerasImportError := true }, some "TensorFlow keras could not be imported")

/- ------------------------------------------------------------------ -/
/- Demand feature encoder (src/api/services/preprocessing_service.py)  -/
/- ------------------------------------------------------------------ -/

/-- A key of a Python encoding dict. The pickled tables mix key types, so a
key is either a string or a native integer (`str(store_id)` vs `store_id`). -/
inductive PyKey
  | s (v : String)
  | i (v : Int)
deriving DecidableEq, Repr

/-- An encoding dict: finite map from raw categorical key to the learned
target-encoding value (first binding wins, keys unique in practice). -/
abbrev EncDict := List (PyKey × ℚ)

/-- Dict lookup (`key in dict` / `dict[key]`). -/
def encLookup (d : EncDict) (k : PyKey) : Option ℚ :=
  (d.find? (fun p => p.1 = k)).map Prod.snd

/-- The common lookup pattern of `_encode_store` / `_encode_sku` /
`_encode_time_features`:
`key = str(x) if str(x) in d else x`, then `d[key]` if present else the
global mean. `strKey` is the string form, `natKey` the native numeric form. -/
def dualLookup (d : EncDict) (strKey natKey : PyKey) (globalMean : ℚ) : ℚ :=
  let key := if (encLookup d strKey).isSome then strKey else natKey
  match encLookup d key with
  | some v => v
  | none => globalMean

/-- The loaded demand encoders (`self._demand_encoders`): store and SKU
tables, per-feature time tables, and the global-mean fallback. -/
structure Encoders where
  storeDict : EncDict
  skuDict : EncDict
  timeDicts : List (String × EncDict)
  globalMean : ℚ

/-- `PreprocessingService._encode_store`. -/
def encodeStore (enc : Encoders) (storeId : Int) : ℚ :=
  dualLookup enc.storeDict (.s (toString storeId)) (.i storeId) enc.globalMean

/-- `PreprocessingService._encode_sku`. -/
def encodeSku (enc : Encoders) (skuId : Int) : ℚ :=
  dualLookup enc.skuDict (.s (toString skuId)) (.i skuId) enc.globalMean

/-- `PreprocessingService._encode_time_features`: for each configured time
feature present in the datetime-feature dict, encode through its time table
when one exists (dual string/native lookup, global-mean fallback), else pass
the raw numeric value through. Calendar values are modelled as integers. -/
def encodeTimeFeatures (enc : Encoders) (cfgTimeFeatures : List String)
    (features : List (String × Int)) : List (String × ℚ) :=
  cfgTimeFeatures.filterMap (fun featName =>
    match (features.find? (fun p => p.1 = featName)).map Prod.snd with
    | none => none
    | some value =>
      match (enc.timeDicts.find? (fun p => p.1 = featName)).map Prod.snd with
      | some featDict =>
          some (featName, dualLookup featDict (.s (toString value)) (.i value) enc.globalMean)
      | none => some (featName, (value : ℚ)))

/-- The feature dict assembled by `preprocess_demand_features`. -/
structure DemandFeatures where
  basePrice : ℚ
  totalPrice : ℚ
  diff : ℚ
  relativeDiffBase : ℚ
  relativeDiffTotal : ℚ
  isFeaturedSku : Int
  isDisplaySku : Int
  storeEncoded : ℚ
  skuEncoded : ℚ
  storeId : Int
  skuId : Int
  timeEncoded : List (String × ℚ)

/-- `PreprocessingService.preprocess_demand_features`. The parsed calendar
decomposition of the week label (`_extract_datetime_features` output) enters
as the `timeFeatures` argument; a missing `total_price` defaults to
`base_price`; the relative price deltas guard division by zero with `0.0`. -/
def preprocessDemandFeatures (enc : Encoders) (cfgTimeFeatures : List String)
    (timeFeatures : List (String × Int)) (storeId skuId : Int)
    (basePrice : ℚ) (totalPrice? : Option ℚ)
    (isFeaturedSku isDisplaySku : Int) : DemandFeatures :=
  let totalPrice := totalPrice?.getD basePrice
  let diff := basePrice - totalPrice
  let relativeDiffBase := if basePrice ≠ 0 then diff / basePrice else 0
  let relativeDiffTotal := if totalPrice ≠ 0 then diff / totalPrice else 0
  { basePrice := basePrice
    totalPrice := totalPrice
    diff := diff
    relativeDiffBase := relativeDiffBase
    relativeDiffTotal := relativeDiffTotal
    isFeaturedSku := isFeaturedSku
    isDisplaySku := isDisplaySku
    storeEncoded := encodeStore enc storeId
    skuEncoded := encodeSku enc skuId
    storeId := storeId
    skuId := skuId
    timeEncoded := encodeTimeFeatures enc cfgTimeFeatures timeFeatures }

/-- Concrete encoders for witnesses. -/
def encEx : Encoders :=
  { storeDict := [(.s "8091", 5)]
    skuDict := [(.i 216418, 7)]
    timeDicts := [("month", [(.s "1", 3)])]
    globalMean := 2 }

/- ------------------------------------------------------------------ -/
/- Data service (src/api/services/data_service.py)                     -/
/- ------------------------------------------------------------------ -/

/-- A row of `features.csv`: store, date (days since a fixed epoch, as
pandas datetimes totally ordered by subtraction), and the exogenous
snapshot of that row abstracted into an identifying payload. -/
structure FeatureRow where
  store : Int
  date : Int
  payload : Int
deriving DecidableEq, Repr

/-- `Series.idxmin` followed by `.loc`: the first element of the list
attaining the minimal value of `f` (pandas resolves ties to the first
occurrence in row order). -/
def idxminFirst {α : Type} (f : α → Nat) : List α → Option α
  | [] => none
  | [x] => some x
  | x :: y :: xs =>
    match idxminFirst f (y :: xs) with
    | some m => some (if f m < f x then m else x)
    | none => some x

/-- `DataService.get_nearest_date_features`: filter the features table by
store; raise `ValueError` when the store has no rows; return the first
exact date match when one exists (`exact_match.iloc[0]`, fused here into
`find?`); otherwise return the row minimising the absolute date distance,
ties to the first row (`idxmin`). -/
def getNearestDateFeatures (table : List FeatureRow) (storeId : Int) (date : Int) :
    Except String FeatureRow :=
  let storeFeatures := table.filter (fun r => r.store = storeId)
  if storeFeatures.isEmpty then .error "No features found for store"
  else
    match storeFeatures.find? (fun r => r.date = date) with
    | some r => .ok r
    | none =>
      match idxminFirst (fun r => (r.date - date).natAbs) storeFeatures with
      | some m => .ok m
      | none => .error "unreachable: storeFeatures is nonempty"

/-- A row of `train.csv`: store, department, weekly sales (floats modelled
as exact rationals). -/
structure TrainRow where
  store : Int
  dept : Int
  sales : ℚ
deriving DecidableEq, Repr

/-- The `(max, min, mean, median, std)` dict of `get_store_dept_stats`.
Only `std` involves a square root, so it lives in `ℝ`. -/
structure DeptStats where
  smax : ℚ
  smin : ℚ
  smean : ℚ
  smedian : ℚ
  sstd : ℝ

/-- `Series.max` on a nonempty series (0 on the empty list, unused). -/
def listMaxD : List ℚ → ℚ
  | [] => 0
  | x :: xs => xs.foldl max x

/-- `Series.min` on a nonempty series (0 on the empty list, unused). -/
def listMinD : List ℚ → ℚ
  | [] => 0
  | x :: xs => xs.foldl min x

/-- The middle of a sorted series, pandas-style: middle element for odd
length, average of the two middle elements for even length. -/
def midOfSorted (sorted : List ℚ) : ℚ :=
  let n := sorted.length
  if n % 2 = 1 then sorted.getD (n / 2) 0
  else (sorted.getD (n / 2 - 1) 0 + sorted.getD (n / 2) 0) / 2

/-- `Series.median`: sort ascending, take the middle. -/
def medianQ (l : List ℚ) : ℚ :=
  midOfSorted (l.insertionSort (· ≤ ·))

/-- The sample variance underlying `Series.std` (pandas default
`ddof = 1`): `Σ (x - mean)² / (n - 1)`. -/
def sampleVar (l : List ℚ) : ℚ :=
  ((l.map (fun x => (x - l.sum / l.length) ^ 2)).sum) / (l.length - 1)

/-- `DataService.get_store_dept_stats`: filter training history by store
and department; all-zero stats when no history exists; otherwise max, min,
mean, median, and `Series.std` (sample standard deviation, 0 when a single
record exists). -/
noncomputable def storeDeptStats (train : List TrainRow) (storeId deptId : Int) : DeptStats :=
  let filtered := train.filter (fun r => r.store = storeId ∧ r.dept = deptId)
  if filtered.isEmpty then ⟨0, 0, 0, 0, 0⟩
  else
    let sales := filtered.map (fun r => r.sales)
    { smax := listMaxD sales
      smin := listMinD sales
      smean := sales.sum / sales.length
      smedian := medianQ sales
      sstd := if 1 < sales.length then Real.sqrt (sampleVar sales) else 0 }

/-- Modelled from the spec for comparison with `storeDeptStats`: the
*population* standard deviation `√(Σ (x - mean)² / n)` that the claim
asserts the code computes. -/
noncomputable def popStdSpec (l : List ℚ) : ℝ :=
  Real.sqrt ((((l.map (fun x => (x - l.sum / l.length) ^ 2)).sum) / l.length : ℚ))

/- ------------------------------------------------------------------ -/
/- One-hot expansion (PreprocessingService._one_hot_encode_price_features) -/
/- ------------------------------------------------------------------ -/

/-- One indicator column per domain element:
`(df[col] == dom_val).astype(int)`. -/
def oneHotBlock {α : Type} [DecidableEq α] (domain : List α) (value : α) : List Int :=
  domain.map (fun d => if value = d then 1 else 0)

/-- The fixed store domain `range(1, 46)`. -/
def storeDomain : List Int := (List.range' 1 45).map (fun n => (n : Int))

/-- `sorted(train_df['Dept'].unique())`: the distinct department ids
observed in training history, sorted ascending. -/
def deptDomain (train : List TrainRow) : List Int :=
  ((train.map (fun r => r.dept)).dedup).insertionSort (· ≤ ·)

/-- The fixed store-type domain `['A', 'B', 'C']`. -/
def typeDomain : List String := ["A", "B", "C"]

/- ------------------------------------------------------------------ -/
/- LightGBM ensemble averaging (LightGBMStrategy.predict)              -/
/- ------------------------------------------------------------------ -/

/-- The ensemble arithmetic of `LightGBMStrategy.predict`, as a function of
the per-model log-space outputs `x_i` (`model.predict(X)[0]`): each model's
output is back-transformed to `exp(x_i) - 1`, then `np.mean` averages the
back-transformed predictions. -/
noncomputable def lgbmEnsemble (logPreds : List ℝ) : ℝ :=
  let predictions := logPreds.map (fun predLog => Real.exp predLog - 1)
  predictions.sum / predictions.length

/-- Modelled from the spec for comparison with `lgbmEnsemble`: the claimed
`exp(mean of the per-model log predictions) - 1`. -/
noncomputable def specEnsemble (logPreds : List ℝ) : ℝ :=
  Real.exp (logPreds.sum / logPreds.length) - 1

end WPE

open WPE

/- Helper lemmas about the registry embedding. -/

theorem Registry.listAll_register {α : Type} (r : Registry α) (name : String) (s : α)
    (k : String) (hk : k ∈ r.listAll) : k ∈ (r.register name s).listAll := by
  unfold Registry.register Registry.listAll at *
  by_cases h : (r.strategies.find? (fun p => p.1 = name)).isSome
  · simp only [h, if_true]
    rcases List.mem_map.1 hk with ⟨p, hp, rfl⟩
    apply List.mem_map.2
    refine ⟨if p.1 = name then (name, s) else p, List.mem_map_of_mem _ hp, ?_⟩
    by_cases hpn : p.1 = name
    · simp [hpn]
    · simp [hpn]
  · simp only [h, if_false]
    rcases List.mem_map.1 hk with ⟨p, hp, rfl⟩
    exact List.mem_map.2 ⟨p, List.mem_append_left _ hp, rfl⟩

theorem Registry.mem_listAll_of_lookup {α : Type} (r : Registry α) (n : String)
    (h : (r.lookup n).isSome) : n ∈ r.listAll := by
  unfold Registry.lookup at h
  rcases Option.isSome_iff_exists.1 h with ⟨s, hs⟩
  rcases Option.map_eq_some'.1 hs with ⟨p, hp, _⟩
  have hmem := List.mem_of_find?_eq_some hp
  have hname : p.1 = n := by
    have := List.find?_some hp
    simpa using this
  exact hname ▸ List.mem_map.2 ⟨p, hmem, rfl⟩

/-- C3. `Registry.get` with no name fails with `notConfigured` when no
default is set and otherwise resolves to the default name; with a resolved
name absent from the mapping it fails with `notFound` carrying `list_all()`;
with a registered name it returns exactly the stored strategy value
(in particular its `loaded` flag as stored — `get` is a pure read and never
triggers a load). -/
theorem C3_registry_get (r : Registry Strat) :
    (r.defaultName = none → r.get none = .error .notConfigured)
    ∧ (∀ d, r.defaultName = some d → r.get none = r.get (some d))
    ∧ (∀ n, r.lookup n = none → r.get (some n) = .error (.notFound r.listAll))
    ∧ (∀ n s, r.lookup n = some s → r.get (some n) = .ok s) := by
  refine ⟨?_, ?_, ?_, ?_⟩
  · intro h; simp [Registry.get, h]
  · intro d h; simp [Registry.get, h]
  · intro n h; simp [Registry.get, h]
  · intro n s h; simp [Registry.get, h]

/-- Witness for C3 at the concrete registry `regEx`. -/
theorem C3_registry_get_witness :
    regEx.get (some "lgb") = .ok ⟨"lightgbm", false⟩
    ∧ regEx.get none = regEx.get (some "lgb")
    ∧ regEx.get (some "nope") = .error (.notFound ["lgb"]) := by
  refine ⟨(C3_registry_get regEx).2.2.2 "lgb" ⟨"lightgbm", false⟩ (by decide),
    (C3_registry_get regEx).2.1 "lgb" rfl, ?_⟩
  have h := (C3_registry_get regEx).2.2.1 "nope" (by decide)
  simpa [regEx, Registry.listAll] using h

/-- C9. The registry invariant (a set default is a registered key) holds in
the empty initial state and is preserved by every operation: `register`
preserves it and never removes a key, `set_default` rejects unregistered
names with `notFound` and preserves it on success; `get` and `list_all` are
pure reads (embedded as functions that return no new registry state). -/
theorem C9_registry_invariant (r : Registry Strat) (name : String) (s : Strat) :
    Registry.Inv (Registry.empty (α := Strat))
    ∧ (Registry.Inv r → Registry.Inv (r.register name s))
    ∧ (∀ k, k ∈ r.listAll → k ∈ (r.register name s).listAll)
    ∧ (r.lookup name = none → r.setDefault name = .error (.notFound r.listAll))
    ∧ (∀ r', r.setDefault name = .ok r' → Registry.Inv r') := by
  refine ⟨?_, ?_, ?_, ?_, ?_⟩
  · intro d hd; simp [Registry.empty] at hd
  · intro hinv d hd
    have hd' : r.defaultName = some d := by
      unfold Registry.register at hd
      by_cases h : (r.strategies.find? (fun p => p.1 = name)).isSome
      · simpa [h] using hd
      · simpa [h] using hd
    exact Registry.listAll_register r name s d (hinv d hd')
  · exact Registry.listAll_register r name s
  · intro h; simp [Registry.setDefault, h]
  · intro r' h
    unfold Registry.setDefault at h
    by_cases hl : (r.lookup name).isSome
    · simp only [hl, if_true] at h
      cases h
      intro d hd
      have : name = d := by simpa using hd
      subst this
      exact Registry.mem_listAll_of_lookup r name hl
    · simp [hl] at h

/-- Witness for C9 at concrete inputs. -/
theorem C9_registry_invariant_witness :
    (regEx.lookup "nope" = none → regEx.setDefault "nope" = .error (.notFound regEx.listAll))
    ∧ (∀ r', regEx.setDefault "lgb" = .ok r' → Registry.Inv r')
    ∧ ("lgb" ∈ (regEx.register "dnn" ⟨"dnn", false⟩).listAll) :=
  ⟨(C9_registry_invariant regEx "nope" ⟨"x", false⟩).2.2.2.1,
   (C9_registry_invariant regEx "lgb" ⟨"x", false⟩).2.2.2.2,
   (C9_registry_invariant regEx "dnn" ⟨"dnn", false⟩).2.2.1 "lgb" (by decide)⟩

/-- Counterexample to C2. The claim says a failed load is terminal: every
subsequent `predict` re-raises the recorded failure and the load is never
retried. Concretely: start `LightGBMStrategy` fresh, call `predict` with no
fold files on disk (the load fails with `ValueError`), then call `predict`
again after one fold file has appeared. The claim predicts the second call
re-raises; the code instead re-runs `load`, which now succeeds. -/
theorem C2_counterexample :
    (lgbmPredictCall [] lgbmInit).2 = some "No models loaded"
    ∧ (lgbmPredictCall [0] (lgbmPredictCall [] lgbmInit).1).2 = none
    ∧ (lgbmPredictCall [0] (lgbmPredictCall [] lgbmInit).1).1.loaded = true := by
  decide

/-- C2 as amended. A failed load attempt leaves the strategy unloaded (no
failure is recorded in `BaseStrategy`), so every subsequent `predict`
re-executes the load against the then-current environment — succeeding
whenever that environment now provides at least one model file. The only
memoised failure is `DNNStrategy`'s keras import error: once recorded, every
later `_ensure_keras_available` re-raises without re-attempting the import
and without changing state. -/
theorem C2_amended (env : List Nat) (henv : env ≠ []) (avail : Bool) (d : DnnState)
    (hd : d.modelFromJson = false) (hk : d.kerasImportError = true) :
    (lgbmPredictCall [] lgbmInit).2.isSome
    ∧ (lgbmPredictCall [] lgbmInit).1.loaded = false
    ∧ (lgbmPredictCall env (lgbmPredictCall [] lgbmInit).1).2 = none
    ∧ (lgbmPredictCall env (lgbmPredictCall [] lgbmInit).1).1.loaded = true
    ∧ (dnnEnsureKeras avail d).2.isSome
    ∧ (dnnEnsureKeras avail d).1 = d := by
  refine ⟨by decide, by decide, ?_, ?_, ?_, ?_⟩
  · simp [lgbmPredictCall, lgbmLoad, lgbmInit, List.isEmpty_iff, henv]
  · simp [lgbmPredictCall, lgbmLoad, lgbmInit, List.isEmpty_iff, henv]
  · simp [dnnEnsureKeras, hd, hk]
  · simp [dnnEnsureKeras, hd, hk]

/-- Witness for the amended C2 at a concrete environment and DNN state. -/
theorem C2_amended_witness :
    (lgbmPredictCall [0] (lgbmPredictCall [] lgbmInit).1).2 = none
    ∧ (dnnEnsureKeras true ⟨false, true⟩).1 = ⟨false, true⟩ :=
  ⟨(C2_amended [0] (by decide) true ⟨false, true⟩ rfl rfl).2.2.1,
   (C2_amended [0] (by decide) true ⟨false, true⟩ rfl rfl).2.2.2.2.2⟩

/- Helper lemmas about the dual string/native dict lookup. -/

theorem dualLookup_miss (d : EncDict) (sk nk : PyKey) (gm : ℚ)
    (h1 : encLookup d sk = none) (h2 : encLookup d nk = none) :
    dualLookup d sk nk gm = gm := by
  simp [dualLookup, h1, h2]

theorem dualLookup_strHit (d : EncDict) (sk nk : PyKey) (gm v : ℚ)
    (h : encLookup d sk = some v) : dualLookup d sk nk gm = v := by
  simp [dualLookup, h]

theorem dualLookup_natHit (d : EncDict) (sk nk : PyKey) (gm v : ℚ)
    (h1 : encLookup d sk = none) (h2 : encLookup d nk = some v) :
    dualLookup d sk nk gm = v := by
  simp [dualLookup, h1, h2]

/-- C5. The demand encoder substitutes exactly the table's global mean for
any store id, SKU id, or configured time-feature value absent from its
table under both the string and the native numeric representation; keys
present under the string form (or, failing that, the native form) yield the
stored encoding value. All encoding functions are total (they never raise
and never return a null). -/
theorem C5_encoder_global_mean (enc : Encoders) (storeId skuId value : Int)
    (cfg : List String) (features : List (String × Int)) (featName : String)
    (featDict : EncDict) :
    (encLookup enc.storeDict (.s (toString storeId)) = none →
      encLookup enc.storeDict (.i storeId) = none →
      encodeStore enc storeId = enc.globalMean)
    ∧ (∀ v, encLookup enc.storeDict (.s (toString storeId)) = some v →
      encodeStore enc storeId = v)
    ∧ (∀ v, encLookup enc.storeDict (.s (toString storeId)) = none →
      encLookup enc.storeDict (.i storeId) = some v → encodeStore enc storeId = v)
    ∧ (encLookup enc.skuDict (.s (toString skuId)) = none →
      encLookup enc.skuDict (.i skuId) = none →
      encodeSku enc skuId = enc.globalMean)
    ∧ (∀ v, encLookup enc.skuDict (.s (toString skuId)) = some v →
      encodeSku enc skuId = v)
    ∧ (∀ v, encLookup enc.skuDict (.s (toString skuId)) = none →
      encLookup enc.skuDict (.i skuId) = some v → encodeSku enc skuId = v)
    ∧ (featName ∈ cfg →
      (features.find? (fun p => p.1 = featName)).map Prod.snd = some value →
      (enc.timeDicts.find? (fun p => p.1 = featName)).map Prod.snd = some featDict →
      encLookup featDict (.s (toString value)) = none →
      encLookup featDict (.i value) = none →
      (featName, enc.globalMean) ∈ encodeTimeFeatures enc cfg features)
    ∧ (∀ v, featName ∈ cfg →
      (features.find? (fun p => p.1 = featName)).map Prod.snd = some value →
      (enc.timeDicts.find? (fun p => p.1 = featName)).map Prod.snd = some featDict →
      encLookup featDict (.s (toString value)) = some v →
      (featName, v) ∈ encodeTimeFeatures enc cfg features)
    ∧ (∀ v, featName ∈ cfg →
      (features.find? (fun p => p.1 = featName)).map Prod.snd = some value →
      (enc.timeDicts.find? (fun p => p.1 = featName)).map Prod.snd = some featDict →
      encLookup featDict (.s (toString value)) = none →
      encLookup featDict (.i value) = some v →
      (featName, v) ∈ encodeTimeFeatures enc cfg features) := by
  refine ⟨?_, ?_, ?_, ?_, ?_, ?_, ?_, ?_, ?_⟩
  · intro h1 h2; exact dualLookup_miss _ _ _ _ h1 h2
  · intro v h; exact dualLookup_strHit _ _ _ _ _ h
  · intro v h1 h2; exact dualLookup_natHit _ _ _ _ _ h1 h2
  · intro h1 h2; exact dualLookup_miss _ _ _ _ h1 h2
  · intro v h; exact dualLookup_strHit _ _ _ _ _ h
  · intro v h1 h2; exact dualLookup_natHit _ _ _ _ _ h1 h2
  · intro hmem hfind hdict h1 h2
    apply List.mem_filterMap.2
    refine ⟨featName, hmem, ?_⟩
    simp only [encodeTimeFeatures, hfind, hdict]
    rw [dualLookup_miss _ _ _ _ h1 h2]
  · intro v hmem hfind hdict h
    apply List.mem_filterMap.2
    refine ⟨featName, hmem, ?_⟩
    simp only [encodeTimeFeatures, hfind, hdict]
    rw [dualLookup_strHit _ _ _ _ _ h]
  · intro v hmem hfind hdict h1 h2
    apply List.mem_filterMap.2
    refine ⟨featName, hmem, ?_⟩
    simp only [encodeTimeFeatures, hfind, hdict]
    rw [dualLookup_natHit _ _ _ _ _ h1 h2]

/-- Witness for C5: at the concrete tables `encEx`, an unseen store id falls
back to the global mean 2, the string-keyed store 8091 and the native-keyed
SKU 216418 hit their stored values, an unseen month value encodes to the
global mean, and the seen month value 1 hits its stored encoding 3. -/
theorem C5_encoder_global_mean_witness :
    encodeStore encEx 12 = 2
    ∧ encodeStore encEx 8091 = 5
    ∧ encodeSku encEx 216418 = 7
    ∧ ("month", (2 : ℚ)) ∈ encodeTimeFeatures encEx ["month"] [("month", 4)]
    ∧ ("month", (3 : ℚ)) ∈ encodeTimeFeatures encEx ["month"] [("month", 1)] :=
  ⟨(C5_encoder_global_mean encEx 12 0 0 [] [] "" []).1 (by decide) (by decide),
   (C5_encoder_global_mean encEx 8091 0 0 [] [] "" []).2.1 5 (by decide),
   (C5_encoder_global_mean encEx 0 216418 0 [] [] "" []).2.2.2.2.2.1 7 (by decide) (by decide),
   (C5_encoder_global_mean encEx 0 0 4 ["month"] [("month", 4)] "month"
      [(.s "1", 3)]).2.2.2.2.2.2.1 (by decide) (by decide) (by decide) (by decide) (by decide),
   (C5_encoder_global_mean encEx 0 0 1 ["month"] [("month", 1)] "month"
      [(.s "1", 3)]).2.2.2.2.2.2.2.1 3 (by decide) (by decide) (by decide) (by decide)⟩

/-- C8. Encoding a demand request with `total_price` absent yields the same
`diff`, `relative_diff_base`, and `relative_diff_total` as the same request
with `total_price` explicitly equal to `base_price`; all three are zero,
including when `base_price` is zero (the guarded divisions return 0). -/
theorem C8_missing_total_price (enc : Encoders) (cfg : List String)
    (tf : List (String × Int)) (storeId skuId : Int) (basePrice : ℚ)
    (fl dl : Int) :
    ((preprocessDemandFeatures enc cfg tf storeId skuId basePrice none fl dl).diff =
      (preprocessDemandFeatures enc cfg tf storeId skuId basePrice (some basePrice) fl dl).diff)
    ∧ ((preprocessDemandFeatures enc cfg tf storeId skuId basePrice none fl dl).relativeDiffBase =
      (preprocessDemandFeatures enc cfg tf storeId skuId basePrice (some basePrice) fl dl).relativeDiffBase)
    ∧ ((preprocessDemandFeatures enc cfg tf storeId skuId basePrice none fl dl).relativeDiffTotal =
      (preprocessDemandFeatures enc cfg tf storeId skuId basePrice (some basePrice) fl dl).relativeDiffTotal)
    ∧ (preprocessDemandFeatures enc cfg tf storeId skuId basePrice none fl dl).diff = 0
    ∧ (preprocessDemandFeatures enc cfg tf storeId skuId basePrice none fl dl).relativeDiffBase = 0
    ∧ (preprocessDemandFeatures enc cfg tf storeId skuId basePrice none fl dl).relativeDiffTotal = 0 := by
  by_cases hb : basePrice = 0 <;>
    simp [preprocessDemandFeatures, hb]

/-- C10. In the dual-representation dict lookup shared by the demand
encoder's categorical fields, when both the string form and the native
numeric form of a key are present (possibly with different values), the
string-form value wins; the native-form value is consulted only when the
string form is absent. -/
theorem C10_string_form_wins (d : EncDict) (sk nk : PyKey) (gm : ℚ)
    (enc : Encoders) (k : Int) :
    (∀ v w, encLookup d sk = some v → encLookup d nk = some w →
      dualLookup d sk nk gm = v)
    ∧ (∀ w, encLookup d sk = none → encLookup d nk = some w →
      dualLookup d sk nk gm = w)
    ∧ (∀ v w, encLookup enc.storeDict (.s (toString k)) = some v →
      encLookup enc.storeDict (.i k) = some w → encodeStore enc k = v) := by
  refine ⟨?_, ?_, ?_⟩
  · intro v w hs _; exact dualLookup_strHit _ _ _ _ _ hs
  · intro w hs hn; exact dualLookup_natHit _ _ _ _ _ hs hn
  · intro v w hs _; exact dualLookup_strHit _ _ _ _ _ hs

/-- Witness for C10 at a dict holding the key 7 under both representations
with different values: the string-form value 10 is returned. -/
theorem C10_string_form_wins_witness :
    dualLookup [(.s "7", 10), (.i 7, 20)] (.s "7") (.i 7) 0 = 10
    ∧ encodeStore ⟨[(.s "7", 10), (.i 7, 20)], [], [], 0⟩ 7 = 10 :=
  ⟨(C10_string_form_wins [(.s "7", 10), (.i 7, 20)] (.s "7") (.i 7) 0
      ⟨[], [], [], 0⟩ 0).1 10 20 (by decide) (by decide),
   (C10_string_form_wins [] (.s "") (.i 0) 0
      ⟨[(.s "7", 10), (.i 7, 20)], [], [], 0⟩ 7).2.2 10 20 (by decide) (by decide)⟩

/- Helper: first-minimum characterisation of `idxminFirst`. -/

theorem idxminFirst_spec {α : Type} (f : α → Nat) (l : List α) (hl : l ≠ []) :
    ∃ m, idxminFirst f l = some m ∧ m ∈ l ∧ (∀ a ∈ l, f m ≤ f a) ∧
      l.find? (fun a => f a = f m) = some m := by
  induction l with
  | nil => exact absurd rfl hl
  | cons x tail ih =>
    cases tail with
    | nil =>
      refine ⟨x, by simp [idxminFirst], by simp, by simp, by simp⟩
    | cons y xs =>
      obtain ⟨m, hm, hmem, hmin, hfind⟩ := ih (by simp)
      by_cases hlt : f m < f x
      · refine ⟨m, ?_, List.mem_cons_of_mem _ hmem, ?_, ?_⟩
        · simp [idxminFirst, hm, hlt]
        · intro a ha
          rcases List.mem_cons.1 ha with rfl | ha
          · exact le_of_lt hlt
          · exact hmin a ha
        · have hne : ¬ (f x = f m) := by omega
          rw [List.find?_cons_of_neg _ (by simpa using hne)]
          exact hfind
      · refine ⟨x, ?_, List.mem_cons_self _ _, ?_, ?_⟩
        · simp [idxminFirst, hm, hlt]
        · intro a ha
          rcases List.mem_cons.1 ha with rfl | ha
          · exact le_refl _
          · exact le_trans (not_lt.1 hlt) (hmin a ha)
        · exact List.find?_cons_of_pos _ (by simp)

/-- C4. Price-feature lookup for `(store, date)`: with no feature rows for
the store, it fails (`NotFound`); with an exact date match, the first such
row is returned verbatim; otherwise the returned row is a row of the store
with minimal absolute date distance, and moreover the first row attaining
that minimal distance in the underlying row ordering. -/
theorem C4_nearest_date (table : List FeatureRow) (storeId date : Int) :
    (table.filter (fun r => r.store = storeId) = [] →
      getNearestDateFeatures table storeId date = .error "No features found for store")
    ∧ (∀ r, (table.filter (fun r => r.store = storeId)).find? (fun r => r.date = date) = some r →
      getNearestDateFeatures table storeId date = .ok r)
    ∧ (table.filter (fun r => r.store = storeId) ≠ [] →
      (table.filter (fun r => r.store = storeId)).find? (fun r => r.date = date) = none →
      ∃ m, getNearestDateFeatures table storeId date = .ok m
        ∧ m ∈ table.filter (fun r => r.store = storeId)
        ∧ (∀ a ∈ table.filter (fun r => r.store = storeId),
            (m.date - date).natAbs ≤ (a.date - date).natAbs)
        ∧ (table.filter (fun r => r.store = storeId)).find?
            (fun a => (a.date - date).natAbs = (m.date - date).natAbs) = some m) := by
  refine ⟨?_, ?_, ?_⟩
  · intro h
    simp [getNearestDateFeatures, h]
  · intro r hfind
    have hne : table.filter (fun r => r.store = storeId) ≠ [] := by
      intro h0
      rw [h0] at hfind
      simp at hfind
    simp only [getNearestDateFeatures]
    rw [if_neg (by simpa [List.isEmpty_iff] using hne), hfind]
  · intro hne hnone
    obtain ⟨m, hm, hmem, hmin, hfind⟩ :=
      idxminFirst_spec (fun r => (r.date - date).natAbs)
        (table.filter (fun r => r.store = storeId)) hne
    refine ⟨m, ?_, hmem, hmin, hfind⟩
    simp only [getNearestDateFeatures]
    rw [if_neg (by simpa [List.isEmpty_iff] using hne), hnone, hm]

/-- Witness for C4 at a concrete table: unknown store fails; an exact match
(store 1, date 14) is returned verbatim; for date 12 the two rows of store 1
are equidistant (distance 2) and the tie resolves to the first row. -/
theorem C4_nearest_date_witness :
    getNearestDateFeatures [⟨2, 10, 102⟩] 1 12 = .error "No features found for store"
    ∧ getNearestDateFeatures [⟨1, 10, 100⟩, ⟨1, 14, 101⟩, ⟨2, 10, 102⟩] 1 14 = .ok ⟨1, 14, 101⟩
    ∧ (∃ m, getNearestDateFeatures [⟨1, 10, 100⟩, ⟨1, 14, 101⟩, ⟨2, 10, 102⟩] 1 12 = .ok m
        ∧ m ∈ ([⟨1, 10, 100⟩, ⟨1, 14, 101⟩, ⟨2, 10, 102⟩] : List FeatureRow).filter
            (fun r => r.store = 1)
        ∧ (∀ a ∈ ([⟨1, 10, 100⟩, ⟨1, 14, 101⟩, ⟨2, 10, 102⟩] : List FeatureRow).filter
            (fun r => r.store = 1), (m.date - 12).natAbs ≤ (a.date - 12).natAbs)
        ∧ (([⟨1, 10, 100⟩, ⟨1, 14, 101⟩, ⟨2, 10, 102⟩] : List FeatureRow).filter
            (fun r => r.store = 1)).find?
            (fun a => (a.date - 12).natAbs = (m.date - 12).natAbs) = some m) :=
  ⟨(C4_nearest_date [⟨2, 10, 102⟩] 1 12).1 (by decide),
   (C4_nearest_date [⟨1, 10, 100⟩, ⟨1, 14, 101⟩, ⟨2, 10, 102⟩] 1 14).2.1
     ⟨1, 14, 101⟩ (by decide),
   (C4_nearest_date [⟨1, 10, 100⟩, ⟨1, 14, 101⟩, ⟨2, 10, 102⟩] 1 12).2.2
     (by decide) (by decide)⟩

/- Helpers: fold characterisations of Series.max / Series.min, and
nonnegativity of the sample variance. -/

theorem foldl_max_spec (xs : List ℚ) : ∀ x : ℚ,
    xs.foldl max x ∈ x :: xs ∧ x ≤ xs.foldl max x ∧ ∀ a ∈ xs, a ≤ xs.foldl max x := by
  induction xs with
  | nil => intro x; simp
  | cons y ys ih =>
    intro x
    obtain ⟨hmem, hle, hub⟩ := ih (max x y)
    simp only [List.foldl_cons]
    refine ⟨?_, le_trans (le_max_left x y) hle, ?_⟩
    · rcases List.mem_cons.1 hmem with h | h
      · rcases max_choice x y with hc | hc
        · exact List.mem_cons.2 (Or.inl (h.trans hc))
        · exact List.mem_cons.2 (Or.inr (List.mem_cons.2 (Or.inl (h.trans hc))))
      · exact List.mem_cons.2 (Or.inr (List.mem_cons.2 (Or.inr h)))
    · intro a ha
      rcases List.mem_cons.1 ha with rfl | ha
      · exact le_trans (le_max_right x a) hle
      · exact hub a ha

theorem foldl_min_spec (xs : List ℚ) : ∀ x : ℚ,
    xs.foldl min x ∈ x :: xs ∧ xs.foldl min x ≤ x ∧ ∀ a ∈ xs, xs.foldl min x ≤ a := by
  induction xs with
  | nil => intro x; simp
  | cons y ys ih =>
    intro x
    obtain ⟨hmem, hle, hlb⟩ := ih (min x y)
    simp only [List.foldl_cons]
    refine ⟨?_, le_trans hle (min_le_left x y), ?_⟩
    · rcases List.mem_cons.1 hmem with h | h
      · rcases min_choice x y with hc | hc
        · exact List.mem_cons.2 (Or.inl (h.trans hc))
        · exact List.mem_cons.2 (Or.inr (List.mem_cons.2 (Or.inl (h.trans hc))))
      · exact List.mem_cons.2 (Or.inr (List.mem_cons.2 (Or.inr h)))
    · intro a ha
      rcases List.mem_cons.1 ha with rfl | ha
      · exact le_trans hle (min_le_right x a)
      · exact hlb a ha

theorem listMaxD_spec (l : List ℚ) (h : l ≠ []) :
    listMaxD l ∈ l ∧ ∀ a ∈ l, a ≤ listMaxD l := by
  cases l with
  | nil => exact absurd rfl h
  | cons x xs =>
    obtain ⟨hmem, hle, hub⟩ := foldl_max_spec xs x
    refine ⟨by simpa [listMaxD] using hmem, ?_⟩
    intro a ha
    rcases List.mem_cons.1 ha with rfl | ha
    · simpa [listMaxD] using hle
    · simpa [listMaxD] using hub a ha

theorem listMinD_spec (l : List ℚ) (h : l ≠ []) :
    listMinD l ∈ l ∧ ∀ a ∈ l, listMinD l ≤ a := by
  cases l with
  | nil => exact absurd rfl h
  | cons x xs =>
    obtain ⟨hmem, hle, hlb⟩ := foldl_min_spec xs x
    refine ⟨by simpa [listMinD] using hmem, ?_⟩
    intro a ha
    rcases List.mem_cons.1 ha with rfl | ha
    · simpa [listMinD] using hle
    · simpa [listMinD] using hlb a ha

theorem sampleVar_nonneg (l : List ℚ) (h : 2 ≤ l.length) : 0 ≤ sampleVar l := by
  unfold sampleVar
  apply div_nonneg
  · apply List.sum_nonneg
    intro x hx
    rcases List.mem_map.1 hx with ⟨a, _, rfl⟩
    positivity
  · have h2 : (2 : ℚ) ≤ (l.length : ℚ) := by exact_mod_cast h
    linarith

/-- C6 as amended. For every `(store, department)` pair the statistics are
the max, min, mean, and median of the pair's historical weekly sales
together with the *sample* (`ddof = 1`, pandas `Series.std` default)
standard deviation — not the population standard deviation the claim
states; the standard deviation is zero when fewer than two records exist,
and a pair with no history yields all-zero statistics without an error. -/
theorem C6_store_dept_stats (train : List TrainRow) (storeId deptId : Int) (sales : List ℚ)
    (hs : sales = (train.filter (fun r => r.store = storeId ∧ r.dept = deptId)).map
      (fun r => r.sales)) :
    (sales = [] → storeDeptStats train storeId deptId = ⟨0, 0, 0, 0, 0⟩)
    ∧ (sales ≠ [] →
      ((storeDeptStats train storeId deptId).smax ∈ sales
        ∧ ∀ a ∈ sales, a ≤ (storeDeptStats train storeId deptId).smax)
      ∧ ((storeDeptStats train storeId deptId).smin ∈ sales
        ∧ ∀ a ∈ sales, (storeDeptStats train storeId deptId).smin ≤ a)
      ∧ (storeDeptStats train storeId deptId).smean * sales.length = sales.sum
      ∧ (∃ ys, sales.Perm ys ∧ ys.Sorted (· ≤ ·)
        ∧ (storeDeptStats train storeId deptId).smedian = midOfSorted ys)
      ∧ (sales.length = 1 → (storeDeptStats train storeId deptId).sstd = 0)
      ∧ (2 ≤ sales.length → 0 ≤ (storeDeptStats train storeId deptId).sstd
        ∧ (storeDeptStats train storeId deptId).sstd ^ 2 = (sampleVar sales : ℝ))) := by
  constructor
  · intro h0
    rw [hs] at h0
    have hf : train.filter (fun r => r.store = storeId ∧ r.dept = deptId) = [] :=
      List.map_eq_nil_iff.1 h0
    simp only [storeDeptStats]
    rw [hf]
    rfl
  · intro hne
    have hf : ¬ (train.filter (fun r => r.store = storeId ∧ r.dept = deptId)).isEmpty := by
      intro h0
      exact hne (by rw [hs, List.isEmpty_iff.1 h0]; rfl)
    have hstats : storeDeptStats train storeId deptId =
        { smax := listMaxD sales
          smin := listMinD sales
          smean := sales.sum / sales.length
          smedian := medianQ sales
          sstd := if 1 < sales.length then Real.sqrt (sampleVar sales) else 0 } := by
      rw [hs]
      simp only [storeDeptStats]
      rw [if_neg hf]
    rw [hstats]
    have hlen : (sales.length : ℚ) ≠ 0 := by
      exact_mod_cast Nat.pos_iff_ne_zero.1 (List.length_pos.2 hne)
    refine ⟨listMaxD_spec sales hne, listMinD_spec sales hne, ?_, ?_, ?_, ?_⟩
    · exact div_mul_cancel₀ sales.sum hlen
    · refine ⟨sales.insertionSort (· ≤ ·), (List.perm_insertionSort _ sales).symm,
        List.sorted_insertionSort _ sales, rfl⟩
    · intro h1
      simp [h1]
    · intro h2
      have hlt : 1 < sales.length := h2
      rw [if_pos hlt]
      exact ⟨Real.sqrt_nonneg _, Real.sq_sqrt (by exact_mod_cast sampleVar_nonneg sales h2)⟩

/-- Counterexample to C6's "population standard deviation": for the single
(store 1, dept 1) history with weekly sales 0 and 2, the code returns
`Series.std = √2` (sample, `ddof = 1`) while the population standard
deviation of `[0, 2]` is `1`. -/
theorem C6_counterexample :
    (storeDeptStats [⟨1, 1, 0⟩, ⟨1, 1, 2⟩] 1 1).sstd = Real.sqrt 2
    ∧ popStdSpec [0, 2] = 1
    ∧ (storeDeptStats [⟨1, 1, 0⟩, ⟨1, 1, 2⟩] 1 1).sstd ≠ popStdSpec [0, 2] := by
  have hfil : ([⟨1, 1, 0⟩, ⟨1, 1, 2⟩] : List TrainRow).filter
      (fun r => r.store = 1 ∧ r.dept = 1) = [⟨1, 1, 0⟩, ⟨1, 1, 2⟩] := by decide
  have hvar : sampleVar [0, 2] = 2 := by
    norm_num [sampleVar]
  have h1 : (storeDeptStats [⟨1, 1, 0⟩, ⟨1, 1, 2⟩] 1 1).sstd = Real.sqrt 2 := by
    simp only [storeDeptStats, hfil]
    norm_num [hvar]
  have h2 : popStdSpec [0, 2] = 1 := by
    have : (((([(0 : ℚ), 2].map (fun x => (x - [(0 : ℚ), 2].sum / [(0 : ℚ), 2].length) ^ 2)).sum)
        / [(0 : ℚ), 2].length : ℚ)) = 1 := by
      norm_num
    rw [popStdSpec, this]
    simp
  refine ⟨h1, h2, ?_⟩
  rw [h1, h2]
  intro h
  have hsq : Real.sqrt 2 ^ 2 = 2 := Real.sq_sqrt (by norm_num)
  rw [h] at hsq
  norm_num at hsq

/-- Witness for C6 at concrete histories: an unmatched pair yields all-zero
statistics; the one-record history `[4]` has max 4 and standard deviation 0. -/
theorem C6_store_dept_stats_witness :
    storeDeptStats [⟨1, 1, 4⟩] 2 1 = ⟨0, 0, 0, 0, 0⟩
    ∧ (storeDeptStats [⟨1, 1, 4⟩] 1 1).smax ∈ [(4 : ℚ)]
    ∧ (storeDeptStats [⟨1, 1, 4⟩] 1 1).sstd = 0 :=
  ⟨(C6_store_dept_stats [⟨1, 1, 4⟩] 2 1 [] (by decide)).1 rfl,
   ((C6_store_dept_stats [⟨1, 1, 4⟩] 1 1 [4] (by decide)).2 (by decide)).1.1,
   ((C6_store_dept_stats [⟨1, 1, 4⟩] 1 1 [4] (by decide)).2 (by decide)).2.2.2.2.1 rfl⟩

/- Helpers: indicator-block counting. -/

theorem oneHotBlock_count_one {α : Type} [DecidableEq α] (domain : List α) (v : α)
    (hn : domain.Nodup) (hm : v ∈ domain) : (oneHotBlock domain v).count 1 = 1 := by
  induction domain with
  | nil => simp at hm
  | cons d ds ih =>
    rw [List.nodup_cons] at hn
    rcases List.mem_cons.1 hm with rfl | hm'
    · have hz : ((ds.map (fun e => if v = e then (1 : Int) else 0)).count 1) = 0 := by
        rw [List.count_eq_zero]
        intro hmem1
        rcases List.mem_map.1 hmem1 with ⟨a, ha, hfa⟩
        by_cases hva : v = a
        · exact hn.1 (hva ▸ ha)
        · simp [hva] at hfa
      simp [oneHotBlock, List.count_cons, hz]
    · have hvd : ¬ (v = d) := fun h => hn.1 (h ▸ hm')
      have htail := ih hn.2 hm'
      simp only [oneHotBlock] at htail ⊢
      simp [List.count_cons, hvd, htail]

theorem oneHotBlock_zero_or_one {α : Type} [DecidableEq α] (domain : List α) (v : α) :
    ∀ x ∈ oneHotBlock domain v, x = 0 ∨ x = 1 := by
  intro x hx
  rcases List.mem_map.1 hx with ⟨a, _, rfl⟩
  by_cases h : v = a
  · simp [h]
  · simp [h]

theorem storeDomain_nodup : storeDomain.Nodup := by
  decide

theorem deptDomain_nodup (train : List TrainRow) : (deptDomain train).Nodup := by
  unfold deptDomain
  exact ((List.perm_insertionSort _ _).nodup_iff).2 (List.nodup_dedup _)

/-- C7. Each of the three one-hot indicator blocks of the price feature
assembler — stores 1–45, departments observed in training history, store
types A/B/C — contains exactly one entry equal to 1 (and every entry is 0
or 1, so all others are 0), whenever the store id, department id, and store
type lie in the respective domains. -/
theorem C7_one_hot_blocks (train : List TrainRow) (storeId deptId : Int) (stype : String)
    (hs : storeId ∈ storeDomain) (hd : deptId ∈ deptDomain train) (ht : stype ∈ typeDomain) :
    ((oneHotBlock storeDomain storeId).count 1 = 1
      ∧ ∀ x ∈ oneHotBlock storeDomain storeId, x = 0 ∨ x = 1)
    ∧ ((oneHotBlock (deptDomain train) deptId).count 1 = 1
      ∧ ∀ x ∈ oneHotBlock (deptDomain train) deptId, x = 0 ∨ x = 1)
    ∧ ((oneHotBlock typeDomain stype).count 1 = 1
      ∧ ∀ x ∈ oneHotBlock typeDomain stype, x = 0 ∨ x = 1) :=
  ⟨⟨oneHotBlock_count_one _ _ storeDomain_nodup hs, oneHotBlock_zero_or_one _ _⟩,
   ⟨oneHotBlock_count_one _ _ (deptDomain_nodup train) hd, oneHotBlock_zero_or_one _ _⟩,
   ⟨oneHotBlock_count_one _ _ (by decide) ht, oneHotBlock_zero_or_one _ _⟩⟩

/-- Witness for C7: store 8, the department domain of a one-row history
(department 3), and store type B. -/
theorem C7_one_hot_blocks_witness :
    (oneHotBlock storeDomain 8).count 1 = 1
    ∧ (oneHotBlock (deptDomain [⟨1, 3, 4⟩]) 3).count 1 = 1
    ∧ (oneHotBlock typeDomain "B").count 1 = 1 :=
  ⟨(C7_one_hot_blocks [⟨1, 3, 4⟩] 8 3 "B" (by decide) (by decide) (by decide)).1.1,
   (C7_one_hot_blocks [⟨1, 3, 4⟩] 8 3 "B" (by decide) (by decide) (by decide)).2.1.1,
   (C7_one_hot_blocks [⟨1, 3, 4⟩] 8 3 "B" (by decide) (by decide) (by decide)).2.2.1⟩

/- Helper: the back-transformed sum. -/

theorem sum_map_exp_sub_one (l : List ℝ) :
    (l.map (fun x => Real.exp x - 1)).sum = (l.map Real.exp).sum - l.length := by
  induction l with
  | nil => simp
  | cons x xs ih =>
    simp only [List.map_cons, List.sum_cons, List.length_cons, ih]
    push_cast
    ring

/-- Counterexample to C1. For the two per-model log-space outputs `0` and
`log 9`, the code's ensemble (`np.mean` of the per-model `exp(x_i) - 1`)
returns `(0 + 8) / 2 = 4`, while the claimed `exp(mean(x_i)) - 1 =
exp(log 3) - 1 = 2`. -/
theorem C1_counterexample :
    lgbmEnsemble [0, Real.log 9] = 4
    ∧ specEnsemble [0, Real.log 9] = 2
    ∧ lgbmEnsemble [0, Real.log 9] ≠ specEnsemble [0, Real.log 9] := by
  have h9 : Real.exp (Real.log 9) = 9 := Real.exp_log (by norm_num)
  have hl : (0 + (Real.log 9 + 0)) / (2 : ℝ) = Real.log 3 := by
    have h93 : (9 : ℝ) = 3 ^ 2 := by norm_num
    rw [h93, Real.log_pow]
    push_cast
    ring
  have h1 : lgbmEnsemble [0, Real.log 9] = 4 := by
    simp only [lgbmEnsemble, List.map_cons, List.map_nil, List.sum_cons, List.sum_nil,
      List.length_cons, List.length_nil, Real.exp_zero, h9]
    norm_num
  have h2 : specEnsemble [0, Real.log 9] = 2 := by
    simp only [specEnsemble, List.sum_cons, List.sum_nil, List.length_cons, List.length_nil]
    rw [show ((0 : ℕ) + 1 + 1 : ℕ) = 2 from rfl]
    push_cast
    rw [hl, Real.exp_log (by norm_num : (0 : ℝ) < 3)]
    norm_num
  exact ⟨h1, h2, by rw [h1, h2]; norm_num⟩

/-- C1 as amended. With `N ≥ 1` loaded boosters producing log-space outputs
`x_1 .. x_N`, `LightGBMStrategy.predict` returns the arithmetic mean of the
per-model back-transformed predictions `exp(x_i) - 1`, which equals
`mean(exp(x_i)) - 1` — not `exp(mean(x_i)) - 1`. -/
theorem C1_ensemble_mean (logPreds : List ℝ) (h : logPreds ≠ []) :
    lgbmEnsemble logPreds = (logPreds.map Real.exp).sum / logPreds.length - 1 := by
  have hn : (logPreds.length : ℝ) ≠ 0 := by
    exact_mod_cast Nat.pos_iff_ne_zero.1 (List.length_pos.2 h)
  simp only [lgbmEnsemble, List.length_map, sum_map_exp_sub_one]
  rw [sub_div, div_self hn]

/-- Witness for the amended C1 at the single log-space output `0`:
the ensemble returns `exp(0) - 1 = 0`. -/
theorem C1_ensemble_mean_witness : lgbmEnsemble [(0 : ℝ)] = 0 := by
  have h := C1_ensemble_mean [(0 : ℝ)] (by simp)
  simpa [Real.exp_zero] using h
